import Mathlib

/-!
Verification of the treemap scale-to-alpha mapper.

The repository contains three variants of the same component:

* a standalone script (`02.矩形树图.js`) with `computeAlpha` and `mapData`
  over records `{ fundname, scale }`;
* a basic Vue component (`TreeMap`, first part of the unnamed file) whose
  `mapData` reads configurable `fundNameKey` / `scaleKey` props and coerces
  the scale field with `Number(v) || 0`;
* a rich Vue component (second part of the unnamed file), identical in its
  data computation but adding a `format` prop used only by the tooltip and
  label formatters.

JavaScript numbers are modelled by `ℝ`.  `Math.cos` is `Real.cos`,
`Math.PI` is `Real.pi`, `Math.min` / `Math.max` are `min` / `max`, and
`a.toFixed(3)` (which rounds to the nearest multiple of `0.001`) is
modelled by `toFixed3`.  The `rgba(...)` template string is modelled by the
`RGBA` record it serialises.  All functions are total by construction,
which captures the source's "never raises" behaviour.
-/

noncomputable section

/-- An RGBA colour: the payload of the `rgba(r, g, b, a)` template string
built in the source; `a` holds the alpha after the `toFixed(3)` rounding. -/
structure RGBA where
  r : ℕ
  g : ℕ
  b : ℕ
  a : ℝ

/-- Model of JavaScript `a.toFixed(3)`: round to the nearest thousandth
(ties rounding up, as for the positive decimal fractions produced here). -/
def toFixed3 (x : ℝ) : ℝ :=
  (round (1000 * x) : ℤ) / 1000

/-- Model of `Math.min(...l)` for a spread list of numbers.  On the empty
list JavaScript returns `+Infinity`, which `ℝ` cannot represent; we return
`0` there and prove separately that `mapData` never consumes this value on
empty input (`mapData [] = []`). -/
def jsMin (l : List ℝ) : ℝ :=
  match l with
  | [] => 0
  | x :: xs => xs.foldl min x

/-- Model of `Math.max(...l)` for a spread list of numbers; `0` on the
empty list for the same (unreachable) reason as `jsMin`. -/
def jsMax (l : List ℝ) : ℝ :=
  match l with
  | [] => 0
  | x :: xs => xs.foldl max x

namespace Standalone

/-- `MIN_ALPHA = 0.5` from the standalone script. -/
def MIN_ALPHA : ℝ := 0.5

/-- `MAX_ALPHA = 0.9` from the standalone script. -/
def MAX_ALPHA : ℝ := 0.9

/-- `computeAlpha(scale, min, max)` from the standalone script:
degenerate branch when `max === min`, otherwise normalise, clamp to
`[0,1]`, apply the `easeInOutSine` curve
`t = 0.5 - 0.5 * cos(π * clamped)` and map linearly onto
`[MIN_ALPHA, MAX_ALPHA]` with defensive clamps. -/
def computeAlpha (scale mn mx : ℝ) : ℝ :=
  if mx = mn then MAX_ALPHA
  else
    let lin := (scale - mn) / (mx - mn)
    let t := 0.5 - 0.5 * Real.cos (Real.pi * min 1 (max 0 lin))
    min MAX_ALPHA (max MIN_ALPHA (MIN_ALPHA + t * (MAX_ALPHA - MIN_ALPHA)))

/-- An input record of the standalone script: `{ fundname, scale }`. -/
structure RawRecord where
  fundname : String
  scale : ℝ

/-- An output record of the standalone script's `mapData`:
`{ name, value, fundname, scale, itemStyle: { color } }`. -/
structure OutRecord where
  name : String
  value : ℝ
  fundname : String
  scale : ℝ
  color : RGBA

/-- The arrow function passed to `src.map` inside the standalone
`mapData`, with the enclosing `min` / `max` as parameters; the colour uses
the fixed `BASE_RGB = [87, 129, 253]` and the alpha via `toFixed(3)`. -/
def mapRecord (mn mx : ℝ) (d : RawRecord) : OutRecord :=
  let a := computeAlpha d.scale mn mx
  { name := d.fundname
    value := d.scale
    fundname := d.fundname
    scale := d.scale
    color := { r := 87, g := 129, b := 253, a := toFixed3 a } }

/-- `mapData(src)` from the standalone script: extract the scales, take
their minimum and maximum, and map each record to its treemap entry. -/
def mapData (src : List RawRecord) : List OutRecord :=
  let scales := src.map fun d => d.scale
  let mn := jsMin scales
  let mx := jsMax scales
  src.map (mapRecord mn mx)

end Standalone

/-- A JavaScript value as far as the Vue components' field accesses
observe it: `undefined`, `null`, a number, or a string.  A string carries
its text together with `numValue`, the result of the ECMAScript
`Number(...)` conversion of that text (`none` models `NaN`, e.g. for a
non-numeric string; `Number("50") = some 50`; `Number("") = some 0`).
The conversion itself is a fixed external JavaScript primitive, so it is
recorded as data rather than re-implemented. -/
inductive JSValue where
  | undefined : JSValue
  | null : JSValue
  | num : ℝ → JSValue
  | str : String → Option ℝ → JSValue

/-- The ECMAScript `Number(v)` conversion on the modelled values, with
`none` standing for `NaN`: `Number(undefined) = NaN`, `Number(null) = 0`,
a number converts to itself, and a string to its recorded parse. -/
def jsToNumber (v : JSValue) : Option ℝ :=
  match v with
  | JSValue.undefined => none
  | JSValue.null => some 0
  | JSValue.num x => some x
  | JSValue.str _ p => p

/-- `Number(v) || 0` from the Vue components' `mapData`: the falsy
numbers (`NaN`, `0`, `-0`; in `ℝ` the latter two coincide) are replaced
by `0`, every other number passes through. -/
def numberOrZero (v : JSValue) : ℝ :=
  match jsToNumber v with
  | none => 0
  | some x => if x = 0 then 0 else x

/-- An open-ended input record of the Vue components: a mapping from
field names to values, as observed through `d?.[key]`. -/
structure VueRecord where
  fields : List (String × JSValue)

/-- `d?.[k]`: field lookup, yielding `undefined` when the key is absent. -/
def getField (d : VueRecord) (k : String) : JSValue :=
  match d.fields.lookup k with
  | some v => v
  | none => JSValue.undefined

/-- `v ?? ''` from the Vue `mapData`: nullish coalescing onto the empty
string (whose `Number` conversion is `0`). -/
def orEmptyString (v : JSValue) : JSValue :=
  match v with
  | JSValue.undefined => JSValue.str "" (some 0)
  | JSValue.null => JSValue.str "" (some 0)
  | v => v

/-- `props.fundNameKey || 'fund_name'` and friends: a string prop with a
default used when the prop is falsy (the empty string). -/
def keyOrDefault (k dflt : String) : String :=
  if k = "" then dflt else k

/-- An output record of the Vue components' `mapData`:
`{ name, value, fund_name, scale, raw, itemStyle: { color }, label }`
(the label object is `{ show: true, fontSize, overflow: 'truncate' }`;
its constant parts are kept as fields). -/
structure VueOutRecord where
  name : JSValue
  value : ℝ
  fund_name : JSValue
  scale : ℝ
  raw : VueRecord
  color : RGBA
  labelShow : Bool
  labelFontSize : ℝ

namespace TreeMapBasic

/-- `MIN_ALPHA = 0.5` from the basic Vue component. -/
def MIN_ALPHA : ℝ := 0.5

/-- `MAX_ALPHA = 0.9` from the basic Vue component. -/
def MAX_ALPHA : ℝ := 0.9

/-- `computeAlpha(scale, min, max)` from the basic Vue component
(textually the same algorithm as the standalone script's). -/
def computeAlpha (scale mn mx : ℝ) : ℝ :=
  if mx = mn then MAX_ALPHA
  else
    let lin := (scale - mn) / (mx - mn)
    let t := 0.5 - 0.5 * Real.cos (Real.pi * min 1 (max 0 lin))
    min MAX_ALPHA (max MIN_ALPHA (MIN_ALPHA + t * (MAX_ALPHA - MIN_ALPHA)))

/-- The props of the basic Vue component that its `mapData` reads
(`fontSize`, `fundNameKey`, `scaleKey`; width/height only affect CSS). -/
structure Props where
  fontSize : ℝ
  fundNameKey : String
  scaleKey : String

/-- The arrow function passed to `src.map` inside the basic Vue
`mapData`: coerce the scale with `Number(..) || 0`, default the name with
`?? ''`, compute the alpha, and build the treemap entry. -/
def mapRecord (fontSize : ℝ) (nameKey scaleKey : String) (mn mx : ℝ)
    (d : VueRecord) : VueOutRecord :=
  let scaleVal := numberOrZero (getField d scaleKey)
  let nameVal := orEmptyString (getField d nameKey)
  let a := computeAlpha scaleVal mn mx
  { name := nameVal
    value := scaleVal
    fund_name := nameVal
    scale := scaleVal
    raw := d
    color := { r := 87, g := 129, b := 253, a := toFixed3 a }
    labelShow := true
    labelFontSize := fontSize }

/-- `mapData(src)` from the basic Vue component: empty guard
(`if (!src || !src.length) return []`; a `List` cannot be `null`),
effective keys, coerced scales, their minimum and maximum, and the map. -/
def mapData (props : Props) (src : List VueRecord) : List VueOutRecord :=
  if src.isEmpty then []
  else
    let nameKey := keyOrDefault props.fundNameKey "fund_name"
    let scaleKey := keyOrDefault props.scaleKey "scale"
    let scales := src.map fun d => numberOrZero (getField d scaleKey)
    let mn := jsMin scales
    let mx := jsMax scales
    src.map (mapRecord props.fontSize nameKey scaleKey mn mx)

end TreeMapBasic

namespace TreeMapRich

/-- The closed enumeration of the rich Vue component's `format` prop:
`'' | 'large' | 'percent' | 'currency'`. -/
inductive FormatMode where
  | plain : FormatMode
  | large : FormatMode
  | percent : FormatMode
  | currency : FormatMode

/-- `MIN_ALPHA = 0.5` from the rich Vue component. -/
def MIN_ALPHA : ℝ := 0.5

/-- `MAX_ALPHA = 0.9` from the rich Vue component. -/
def MAX_ALPHA : ℝ := 0.9

/-- `computeAlpha(scale, min, max)` from the rich Vue component
(textually the same algorithm as the other two variants). -/
def computeAlpha (scale mn mx : ℝ) : ℝ :=
  if mx = mn then MAX_ALPHA
  else
    let lin := (scale - mn) / (mx - mn)
    let t := 0.5 - 0.5 * Real.cos (Real.pi * min 1 (max 0 lin))
    min MAX_ALPHA (max MIN_ALPHA (MIN_ALPHA + t * (MAX_ALPHA - MIN_ALPHA)))

/-- The props of the rich Vue component that reach `mapData` or the
display formatters: the basic props plus the `format` mode. -/
structure Props where
  fontSize : ℝ
  fundNameKey : String
  scaleKey : String
  format : FormatMode

/-- The arrow function passed to `src.map` inside the rich Vue `mapData`
(textually identical to the basic component's). -/
def mapRecord (fontSize : ℝ) (nameKey scaleKey : String) (mn mx : ℝ)
    (d : VueRecord) : VueOutRecord :=
  let scaleVal := numberOrZero (getField d scaleKey)
  let nameVal := orEmptyString (getField d nameKey)
  let a := computeAlpha scaleVal mn mx
  { name := nameVal
    value := scaleVal
    fund_name := nameVal
    scale := scaleVal
    raw := d
    color := { r := 87, g := 129, b := 253, a := toFixed3 a }
    labelShow := true
    labelFontSize := fontSize }

/-- `mapData(src)` from the rich Vue component: textually identical to
the basic component's; in particular it never reads `props.format`, which
is consumed only by `formatScale` in the tooltip and label formatters. -/
def mapData (props : Props) (src : List VueRecord) : List VueOutRecord :=
  if src.isEmpty then []
  else
    let nameKey := keyOrDefault props.fundNameKey "fund_name"
    let scaleKey := keyOrDefault props.scaleKey "scale"
    let scales := src.map fun d => numberOrZero (getField d scaleKey)
    let mn := jsMin scales
    let mx := jsMax scales
    src.map (mapRecord props.fontSize nameKey scaleKey mn mx)

end TreeMapRich

/-! The standalone script is dynamically typed: `updateTreemap` accepts
arbitrary records, and its `mapData` does **no** `Number(..) || 0`
coercion — `d.scale` flows raw into `value` / `scale` and into the
arithmetic of `computeAlpha`, where JavaScript's `ToNumber` turns a
missing (`undefined`) or non-numeric field into `NaN`.  To talk about
such inputs, the following re-embeds the very same source lines of
`02.矩形树图.js` over a dynamic numeric domain `JSNum = Option ℝ`, where
`none` models `NaN` (the finite-or-`NaN` fragment of JS numbers; the
infinities do not arise in these code paths, see `jsDiv`). -/

/-- A JavaScript number that is either finite (`some x`) or `NaN`
(`none`). -/
abbrev JSNum := Option ℝ

/-- JS subtraction: `NaN` absorbs. -/
def jsSub (a b : JSNum) : JSNum :=
  match a, b with
  | some x, some y => some (x - y)
  | _, _ => none

/-- JS addition: `NaN` absorbs. -/
def jsAdd (a b : JSNum) : JSNum :=
  match a, b with
  | some x, some y => some (x + y)
  | _, _ => none

/-- JS multiplication: `NaN` absorbs. -/
def jsMul (a b : JSNum) : JSNum :=
  match a, b with
  | some x, some y => some (x * y)
  | _, _ => none

/-- JS division: `NaN` absorbs.  A zero divisor yields a non-finite JS
value (`±Infinity` or `NaN`), outside the finite fragment, so it is
mapped to the non-finite marker; in `computeAlpha` the divisor
`max - min` is zero only when `max === min`, which the degenerate branch
already intercepted, so that case is never reached from the source. -/
def jsDiv (a b : JSNum) : JSNum :=
  match a, b with
  | some x, some y => if y = 0 then none else some (x / y)
  | _, _ => none

/-- `Math.cos`: `NaN` propagates. -/
def jsCos (a : JSNum) : JSNum :=
  match a with
  | some x => some (Real.cos x)
  | none => none

/-- `Math.min` on two numbers: `NaN` if either argument is `NaN`. -/
def jsMinNum (a b : JSNum) : JSNum :=
  match a, b with
  | some x, some y => some (min x y)
  | _, _ => none

/-- `Math.max` on two numbers: `NaN` if either argument is `NaN`. -/
def jsMaxNum (a b : JSNum) : JSNum :=
  match a, b with
  | some x, some y => some (max x y)
  | _, _ => none

/-- Strict equality `===` on JS numbers: false whenever either side is
`NaN`, ordinary equality on finite values. -/
def jsEqNum (a b : JSNum) : Bool :=
  match a, b with
  | some x, some y => if x = y then true else false
  | _, _ => false

/-- `Math.min(...l)` over the dynamic domain: binary-`Math.min` fold, so
any `NaN` makes the result `NaN`.  On the empty list JS returns
`+Infinity`, outside the finite-or-`NaN` fragment; the marker returned
there is junk that `mapData` never consumes (`mapData [] = []`). -/
def jsMinSpread (l : List JSNum) : JSNum :=
  match l with
  | [] => none
  | x :: xs => xs.foldl jsMinNum x

/-- `Math.max(...l)` over the dynamic domain; junk on `[]` as for
`jsMinSpread`. -/
def jsMaxSpread (l : List JSNum) : JSNum :=
  match l with
  | [] => none
  | x :: xs => xs.foldl jsMaxNum x

/-- `a.toFixed(3)` over the dynamic domain: `(NaN).toFixed(3)` is the
string `"NaN"`, kept as the non-finite marker. -/
def toFixed3Dyn (a : JSNum) : JSNum :=
  match a with
  | some x => some (toFixed3 x)
  | none => none

namespace DynStandalone

/-- `computeAlpha(scale, min, max)` of the standalone script re-embedded
over the dynamic domain: the same branch structure and operations as
`Standalone.computeAlpha`, with every JS arithmetic primitive replaced by
its `NaN`-aware counterpart.  The caller passes `scale` already through
`ToNumber` (`jsToNumber`), which is where JS converts it — the only uses
of `scale` inside the body are arithmetic. -/
def computeAlpha (scale mn mx : JSNum) : JSNum :=
  if jsEqNum mx mn then some Standalone.MAX_ALPHA
  else
    let lin := jsDiv (jsSub scale mn) (jsSub mx mn)
    let t := jsSub (some 0.5) (jsMul (some 0.5)
      (jsCos (jsMul (some Real.pi) (jsMinNum (some 1) (jsMaxNum (some 0) lin)))))
    jsMinNum (some Standalone.MAX_ALPHA)
      (jsMaxNum (some Standalone.MIN_ALPHA)
        (jsAdd (some Standalone.MIN_ALPHA)
          (jsMul t (jsSub (some Standalone.MAX_ALPHA) (some Standalone.MIN_ALPHA)))))

/-- An input record of the standalone script as the dynamically-typed
runtime actually receives it (e.g. through `updateTreemap`): the scale
field holds an arbitrary JS value — possibly `undefined` (missing),
`null`, or a non-numeric string. -/
structure DynRawRecord where
  fundname : String
  scale : JSValue

/-- The colour of a dynamically-typed output record: the alpha slot of
the `rgba(...)` string may read `"NaN"` (the `none` marker). -/
structure DynRGBA where
  r : ℕ
  g : ℕ
  b : ℕ
  a : JSNum

/-- An output record of the dynamically-typed standalone `mapData`:
`value`, `fundname` and `scale` are the raw pass-through of the input
fields — no coercion happens in this variant. -/
structure DynOutRecord where
  name : String
  value : JSValue
  fundname : String
  scale : JSValue
  color : DynRGBA

/-- The arrow function inside the standalone `mapData`, dynamic version:
`value: d.scale` and `scale: d.scale` pass the raw field through;
`computeAlpha` receives it through `ToNumber`. -/
def mapRecord (mn mx : JSNum) (d : DynRawRecord) : DynOutRecord :=
  let a := computeAlpha (jsToNumber d.scale) mn mx
  { name := d.fundname
    value := d.scale
    fundname := d.fundname
    scale := d.scale
    color := { r := 87, g := 129, b := 253, a := toFixed3Dyn a } }

/-- `mapData(src)` of the standalone script, dynamic version: the scales
array spreads into `Math.min` / `Math.max`, which apply `ToNumber` to
each argument (`jsToNumber` at map time), and no record is coerced. -/
def mapData (src : List DynRawRecord) : List DynOutRecord :=
  let scales := src.map fun d => jsToNumber d.scale
  let mn := jsMinSpread scales
  let mx := jsMaxSpread scales
  src.map (mapRecord mn mx)

end DynStandalone

/-- The input of the spec's demo scenario: four records with names
`A`, `B`, `C`, `D` and scales `200`, `150`, `100`, `50`. -/
def scenarioData : List Standalone.RawRecord :=
  [⟨"A", 200⟩, ⟨"B", 150⟩, ⟨"C", 100⟩, ⟨"D", 50⟩]

/-- A malformed scale value in the sense of the spec: missing (hence read
as `undefined`), `null`, `undefined`, or a string whose `Number`
conversion is `NaN`. -/
def Malformed (v : JSValue) : Prop :=
  v = JSValue.undefined ∨ v = JSValue.null ∨ ∃ s, v = JSValue.str s none

end

/-! ### Helper lemmas -/

/-- Unfolding lemma for the degenerate branch of `computeAlpha`. -/
theorem Standalone.computeAlpha_of_eq (s mn mx : ℝ) (h : mx = mn) :
    Standalone.computeAlpha s mn mx = Standalone.MAX_ALPHA := by
  rw [Standalone.computeAlpha, if_pos h]

/-- Unfolding lemma for the general branch of `computeAlpha`. -/
theorem Standalone.computeAlpha_of_ne (s mn mx : ℝ) (h : ¬mx = mn) :
    Standalone.computeAlpha s mn mx =
      min Standalone.MAX_ALPHA (max Standalone.MIN_ALPHA
        (Standalone.MIN_ALPHA +
          (0.5 - 0.5 * Real.cos (Real.pi * min 1 (max 0 ((s - mn) / (mx - mn))))) *
          (Standalone.MAX_ALPHA - Standalone.MIN_ALPHA))) := by
  rw [Standalone.computeAlpha, if_neg h]

/-- The computed alpha always lies in `[MIN_ALPHA, MAX_ALPHA]`. -/
theorem computeAlpha_mem (s mn mx : ℝ) :
    Standalone.MIN_ALPHA ≤ Standalone.computeAlpha s mn mx ∧
    Standalone.computeAlpha s mn mx ≤ Standalone.MAX_ALPHA := by
  by_cases h : mx = mn
  · rw [Standalone.computeAlpha_of_eq s mn mx h]
    constructor
    · norm_num [Standalone.MIN_ALPHA, Standalone.MAX_ALPHA]
    · exact le_rfl
  · rw [Standalone.computeAlpha_of_ne s mn mx h]
    refine ⟨le_min ?_ (le_max_left _ _), min_le_left _ _⟩
    norm_num [Standalone.MIN_ALPHA, Standalone.MAX_ALPHA]

/-- When `min ≤ max`, `computeAlpha` is monotone non-decreasing in `scale`. -/
theorem computeAlpha_mono (mn mx s1 s2 : ℝ) (hmn : mn ≤ mx) (h12 : s1 ≤ s2) :
    Standalone.computeAlpha s1 mn mx ≤ Standalone.computeAlpha s2 mn mx := by
  by_cases he : mx = mn
  · rw [Standalone.computeAlpha_of_eq s1 mn mx he, Standalone.computeAlpha_of_eq s2 mn mx he]
  · have hden : 0 < mx - mn := by
      rcases lt_or_eq_of_le hmn with h | h
      · linarith
      · exact absurd h.symm he
    have hdiv : (s1 - mn) / (mx - mn) ≤ (s2 - mn) / (mx - mn) :=
      (div_le_div_iff_of_pos_right hden).mpr (by linarith)
    set c1 : ℝ := min 1 (max 0 ((s1 - mn) / (mx - mn))) with hc1
    set c2 : ℝ := min 1 (max 0 ((s2 - mn) / (mx - mn))) with hc2
    have hcc : c1 ≤ c2 := min_le_min le_rfl (max_le_max le_rfl hdiv)
    have hc1nn : 0 ≤ c1 := le_min zero_le_one (le_max_left _ _)
    have hc2le : c2 ≤ 1 := min_le_left _ _
    have hcos : Real.cos (Real.pi * c2) ≤ Real.cos (Real.pi * c1) :=
      Real.cos_le_cos_of_nonneg_of_le_pi
        (mul_nonneg Real.pi_pos.le hc1nn)
        (mul_le_of_le_one_right Real.pi_pos.le hc2le)
        (mul_le_mul_of_nonneg_left hcc Real.pi_pos.le)
    rw [Standalone.computeAlpha_of_ne s1 mn mx he, Standalone.computeAlpha_of_ne s2 mn mx he,
      ← hc1, ← hc2]
    refine min_le_min le_rfl (max_le_max le_rfl (add_le_add_left ?_ _))
    have hband : (0 : ℝ) ≤ Standalone.MAX_ALPHA - Standalone.MIN_ALPHA := by
      norm_num [Standalone.MIN_ALPHA, Standalone.MAX_ALPHA]
    exact mul_le_mul_of_nonneg_right (by linarith) hband

/-- A `foldl` of `min` stays below a `foldl` of `max` started no lower. -/
theorem foldl_min_le_foldl_max (l : List ℝ) :
    ∀ a b : ℝ, a ≤ b → l.foldl min a ≤ l.foldl max b := by
  induction l with
  | nil => intro a b h; simpa using h
  | cons x xs ih =>
    intro a b h
    simp only [List.foldl]
    exact ih _ _ (le_trans (min_le_left a x) (le_trans h (le_max_left b x)))

/-- On a non-empty list the spread minimum is at most the spread maximum. -/
theorem jsMin_le_jsMax (l : List ℝ) (h : l ≠ []) : jsMin l ≤ jsMax l := by
  cases l with
  | nil => exact absurd rfl h
  | cons x xs => exact foldl_min_le_foldl_max xs x x le_rfl

/-- A `foldl` of `min` over a constant list is the constant. -/
theorem foldl_min_const (c : ℝ) (l : List ℝ) (h : ∀ y ∈ l, y = c) :
    l.foldl min c = c := by
  induction l with
  | nil => rfl
  | cons x xs ih =>
    have hx : x = c := h x (List.mem_cons_self x xs)
    simp only [List.foldl, hx, min_self]
    exact ih fun y hy => h y (List.mem_cons_of_mem _ hy)

/-- A `foldl` of `max` over a constant list is the constant. -/
theorem foldl_max_const (c : ℝ) (l : List ℝ) (h : ∀ y ∈ l, y = c) :
    l.foldl max c = c := by
  induction l with
  | nil => rfl
  | cons x xs ih =>
    have hx : x = c := h x (List.mem_cons_self x xs)
    simp only [List.foldl, hx, max_self]
    exact ih fun y hy => h y (List.mem_cons_of_mem _ hy)

/-- The spread minimum of a non-empty constant list is the constant. -/
theorem jsMin_const (c : ℝ) (l : List ℝ) (hne : l ≠ []) (h : ∀ y ∈ l, y = c) :
    jsMin l = c := by
  cases l with
  | nil => exact absurd rfl hne
  | cons x xs =>
    have hx : x = c := h x (List.mem_cons_self x xs)
    show xs.foldl min x = c
    rw [hx]
    exact foldl_min_const c xs fun y hy => h y (List.mem_cons_of_mem _ hy)

/-- The spread maximum of a non-empty constant list is the constant. -/
theorem jsMax_const (c : ℝ) (l : List ℝ) (hne : l ≠ []) (h : ∀ y ∈ l, y = c) :
    jsMax l = c := by
  cases l with
  | nil => exact absurd rfl hne
  | cons x xs =>
    have hx : x = c := h x (List.mem_cons_self x xs)
    show xs.foldl max x = c
    rw [hx]
    exact foldl_max_const c xs fun y hy => h y (List.mem_cons_of_mem _ hy)

/-- `toFixed3` is monotone non-decreasing. -/
theorem toFixed3_mono {x y : ℝ} (h : x ≤ y) : toFixed3 x ≤ toFixed3 y := by
  unfold toFixed3
  have hr : round (1000 * x) ≤ round (1000 * y) := by
    rw [round_eq, round_eq]
    exact Int.floor_mono (by linarith)
  have h2 : ((round (1000 * x) : ℤ) : ℝ) ≤ ((round (1000 * y) : ℤ) : ℝ) :=
    Int.cast_le.mpr hr
  linarith

/-- `toFixed3` on an exact multiple of `1/1000` returns it unchanged. -/
theorem toFixed3_of_mul_eq (x : ℝ) (n : ℤ) (h : 1000 * x = (n : ℝ)) :
    toFixed3 x = (n : ℝ) / 1000 := by
  unfold toFixed3
  rw [h, round_intCast]

/-- `toFixed3 0.5 = 0.5`. -/
theorem toFixed3_min_alpha : toFixed3 0.5 = 0.5 := by
  rw [toFixed3_of_mul_eq 0.5 500 (by norm_num)]
  norm_num

/-- `toFixed3 0.9 = 0.9`. -/
theorem toFixed3_max_alpha : toFixed3 0.9 = 0.9 := by
  rw [toFixed3_of_mul_eq 0.9 900 (by norm_num)]
  norm_num

/-- `toFixed3 0.6 = 0.6`. -/
theorem toFixed3_six_tenths : toFixed3 0.6 = 0.6 := by
  rw [toFixed3_of_mul_eq 0.6 600 (by norm_num)]
  norm_num

/-- `toFixed3 0.8 = 0.8`. -/
theorem toFixed3_eight_tenths : toFixed3 0.8 = 0.8 := by
  rw [toFixed3_of_mul_eq 0.8 800 (by norm_num)]
  norm_num

/-- Unfolding of the standalone `mapData` to its `map` form. -/
theorem Standalone.mapData_eq (src : List Standalone.RawRecord) :
    Standalone.mapData src =
      src.map (Standalone.mapRecord (jsMin (src.map fun d => d.scale))
        (jsMax (src.map fun d => d.scale))) := rfl

/-- Unfolding of the basic Vue `mapData` on a non-empty list. -/
theorem basic_mapData_cons (p : TreeMapBasic.Props) (x : VueRecord)
    (xs : List VueRecord) :
    TreeMapBasic.mapData p (x :: xs) =
      (x :: xs).map (TreeMapBasic.mapRecord p.fontSize
        (keyOrDefault p.fundNameKey "fund_name") (keyOrDefault p.scaleKey "scale")
        (jsMin ((x :: xs).map fun d =>
          numberOrZero (getField d (keyOrDefault p.scaleKey "scale"))))
        (jsMax ((x :: xs).map fun d =>
          numberOrZero (getField d (keyOrDefault p.scaleKey "scale"))))) := rfl

/-- Unfolding of the rich Vue `mapData` on a non-empty list. -/
theorem rich_mapData_cons (p : TreeMapRich.Props) (x : VueRecord)
    (xs : List VueRecord) :
    TreeMapRich.mapData p (x :: xs) =
      (x :: xs).map (TreeMapRich.mapRecord p.fontSize
        (keyOrDefault p.fundNameKey "fund_name") (keyOrDefault p.scaleKey "scale")
        (jsMin ((x :: xs).map fun d =>
          numberOrZero (getField d (keyOrDefault p.scaleKey "scale"))))
        (jsMax ((x :: xs).map fun d =>
          numberOrZero (getField d (keyOrDefault p.scaleKey "scale"))))) := rfl

/-- Evaluation scaffold for `computeAlpha` outside the degenerate branch:
supply the clamped normalised position and the cosine value. -/
theorem computeAlpha_eval (s mn mx c v : ℝ) (hne : ¬mx = mn)
    (hc : min 1 (max 0 ((s - mn) / (mx - mn))) = c)
    (hv : Real.cos (Real.pi * c) = v) :
    Standalone.computeAlpha s mn mx =
      min Standalone.MAX_ALPHA (max Standalone.MIN_ALPHA
        (Standalone.MIN_ALPHA + (0.5 - 0.5 * v) *
          (Standalone.MAX_ALPHA - Standalone.MIN_ALPHA))) := by
  rw [Standalone.computeAlpha_of_ne s mn mx hne, hc, hv]

/-- At the maximum of the demo range, the alpha is `0.9`. -/
theorem alpha_at_200 : Standalone.computeAlpha 200 50 200 = 0.9 := by
  rw [computeAlpha_eval 200 50 200 1 (-1) (by norm_num)
    (by norm_num [min_def, max_def])
    (by rw [mul_one, Real.cos_pi])]
  norm_num [Standalone.MIN_ALPHA, Standalone.MAX_ALPHA, min_def, max_def]

/-- At scale `150` of the demo range, the alpha is `0.8`. -/
theorem alpha_at_150 : Standalone.computeAlpha 150 50 200 = 0.8 := by
  rw [computeAlpha_eval 150 50 200 (2 / 3) (-(1 / 2)) (by norm_num)
    (by norm_num [min_def, max_def])
    (by
      rw [show Real.pi * (2 / 3) = Real.pi - Real.pi / 3 by ring,
        Real.cos_pi_sub, Real.cos_pi_div_three])]
  norm_num [Standalone.MIN_ALPHA, Standalone.MAX_ALPHA, min_def, max_def]

/-- At scale `100` of the demo range, the alpha is `0.6`. -/
theorem alpha_at_100 : Standalone.computeAlpha 100 50 200 = 0.6 := by
  rw [computeAlpha_eval 100 50 200 (1 / 3) (1 / 2) (by norm_num)
    (by norm_num [min_def, max_def])
    (by rw [show Real.pi * (1 / 3) = Real.pi / 3 by ring, Real.cos_pi_div_three])]
  norm_num [Standalone.MIN_ALPHA, Standalone.MAX_ALPHA, min_def, max_def]

/-- At the minimum of the demo range, the alpha is `0.5`. -/
theorem alpha_at_50 : Standalone.computeAlpha 50 50 200 = 0.5 := by
  rw [computeAlpha_eval 50 50 200 0 1 (by norm_num)
    (by norm_num [min_def, max_def])
    (by rw [mul_zero, Real.cos_zero])]
  norm_num [Standalone.MIN_ALPHA, Standalone.MAX_ALPHA, min_def, max_def]

/-- With a reversed range (`max < min`), the smaller scale gets alpha `0.9`. -/
theorem alpha_rev_at_0 : Standalone.computeAlpha 0 1 0 = 0.9 := by
  rw [computeAlpha_eval 0 1 0 1 (-1) (by norm_num)
    (by norm_num [min_def, max_def])
    (by rw [mul_one, Real.cos_pi])]
  norm_num [Standalone.MIN_ALPHA, Standalone.MAX_ALPHA, min_def, max_def]

/-- With a reversed range (`max < min`), the larger scale gets alpha `0.5`. -/
theorem alpha_rev_at_1 : Standalone.computeAlpha 1 1 0 = 0.5 := by
  rw [computeAlpha_eval 1 1 0 0 1 (by norm_num)
    (by norm_num [min_def, max_def])
    (by rw [mul_zero, Real.cos_zero])]
  norm_num [Standalone.MIN_ALPHA, Standalone.MAX_ALPHA, min_def, max_def]

/-- An alpha within the band stays within the band after `toFixed(3)`. -/
theorem toFixed3_alpha_mem (a : ℝ) (h1 : (0.5 : ℝ) ≤ a) (h2 : a ≤ 0.9) :
    (0.5 : ℝ) ≤ toFixed3 a ∧ toFixed3 a ≤ 0.9 := by
  constructor
  · have h := toFixed3_mono h1
    rwa [toFixed3_min_alpha] at h
  · have h := toFixed3_mono h2
    rwa [toFixed3_max_alpha] at h

/-- The record the standalone `mapData` output holds at index `i`. -/
theorem standalone_mapData_get (src : List Standalone.RawRecord) (i : ℕ)
    (hi : i < src.length) (hi2 : i < (Standalone.mapData src).length) :
    (Standalone.mapData src).get ⟨i, hi2⟩ =
      Standalone.mapRecord (jsMin (src.map fun d => d.scale))
        (jsMax (src.map fun d => d.scale)) (src.get ⟨i, hi⟩) := by
  simp only [Standalone.mapData_eq, List.get_eq_getElem, List.getElem_map]

/-- The record the basic Vue `mapData` output holds at index `i`. -/
theorem basic_mapData_get (p : TreeMapBasic.Props) (src : List VueRecord)
    (i : ℕ) (hi : i < src.length) (hi2 : i < (TreeMapBasic.mapData p src).length) :
    (TreeMapBasic.mapData p src).get ⟨i, hi2⟩ =
      TreeMapBasic.mapRecord p.fontSize (keyOrDefault p.fundNameKey "fund_name")
        (keyOrDefault p.scaleKey "scale")
        (jsMin (src.map fun d => numberOrZero (getField d (keyOrDefault p.scaleKey "scale"))))
        (jsMax (src.map fun d => numberOrZero (getField d (keyOrDefault p.scaleKey "scale"))))
        (src.get ⟨i, hi⟩) := by
  cases src with
  | nil => exact absurd hi (by simp)
  | cons x xs =>
    simp only [basic_mapData_cons, List.get_eq_getElem, List.getElem_map]

/-- Malformed scale values coerce to `0` under `Number(..) || 0`. -/
theorem numberOrZero_of_malformed (v : JSValue) (h : Malformed v) :
    numberOrZero v = 0 := by
  rcases h with h | h | ⟨s, h⟩ <;> subst h <;> simp [numberOrZero, jsToNumber]

/-- A numeric string with non-zero parse passes through `Number(..) || 0`. -/
theorem numberOrZero_str (s : String) (x : ℝ) (hx : x ≠ 0) :
    numberOrZero (JSValue.str s (some x)) = x := by
  simp [numberOrZero, jsToNumber, hx]

/-- Unfolding of the dynamic standalone `mapData` to its `map` form. -/
theorem dyn_mapData_eq (src : List DynStandalone.DynRawRecord) :
    DynStandalone.mapData src =
      src.map (DynStandalone.mapRecord
        (jsMinSpread (src.map fun d => jsToNumber d.scale))
        (jsMaxSpread (src.map fun d => jsToNumber d.scale))) := rfl

/-- The record the dynamic standalone `mapData` output holds at index
`i`. -/
theorem dyn_mapData_get (src : List DynStandalone.DynRawRecord) (i : ℕ)
    (hi : i < src.length) (hi2 : i < (DynStandalone.mapData src).length) :
    (DynStandalone.mapData src).get ⟨i, hi2⟩ =
      DynStandalone.mapRecord
        (jsMinSpread (src.map fun d => jsToNumber d.scale))
        (jsMaxSpread (src.map fun d => jsToNumber d.scale))
        (src.get ⟨i, hi⟩) := by
  simp only [dyn_mapData_eq, List.get_eq_getElem, List.getElem_map]

/-- On finite arguments the dynamic re-embedding of the standalone
`computeAlpha` agrees with the typed one. -/
theorem dyn_computeAlpha_agrees (s mn mx : ℝ) :
    DynStandalone.computeAlpha (some s) (some mn) (some mx) =
      some (Standalone.computeAlpha s mn mx) := by
  by_cases h : mx = mn
  · rw [Standalone.computeAlpha_of_eq s mn mx h]
    simp [DynStandalone.computeAlpha, jsEqNum, h]
  · have hsub : mx - mn ≠ 0 := sub_ne_zero.mpr h
    rw [Standalone.computeAlpha_of_ne s mn mx h]
    simp [DynStandalone.computeAlpha, jsEqNum, h, jsSub, jsMul, jsAdd, jsDiv,
      jsCos, jsMinNum, jsMaxNum, hsub]

/-! ### Claims -/

/-- C1: for every scale, min and max — including negative and
out-of-range values — the alpha computed by `computeAlpha` lies in the
closed interval `[0.5, 0.9]`, and the alpha emitted in every output
record's rgba colour (by the standalone and the basic Vue `mapData`)
lies in `[0.5, 0.9]` as well. -/
theorem claim_C1 :
    (∀ s mn mx : ℝ, (0.5 : ℝ) ≤ Standalone.computeAlpha s mn mx ∧
      Standalone.computeAlpha s mn mx ≤ 0.9) ∧
    (∀ (src : List Standalone.RawRecord) (i : ℕ) (hi : i < src.length)
      (hi2 : i < (Standalone.mapData src).length),
      (0.5 : ℝ) ≤ ((Standalone.mapData src).get ⟨i, hi2⟩).color.a ∧
      ((Standalone.mapData src).get ⟨i, hi2⟩).color.a ≤ 0.9) ∧
    (∀ (p : TreeMapBasic.Props) (src : List VueRecord) (i : ℕ)
      (hi : i < src.length) (hi2 : i < (TreeMapBasic.mapData p src).length),
      (0.5 : ℝ) ≤ ((TreeMapBasic.mapData p src).get ⟨i, hi2⟩).color.a ∧
      ((TreeMapBasic.mapData p src).get ⟨i, hi2⟩).color.a ≤ 0.9) := by
  refine ⟨fun s mn mx => computeAlpha_mem s mn mx, ?_, ?_⟩
  · intro src i hi hi2
    rw [standalone_mapData_get src i hi hi2]
    exact toFixed3_alpha_mem _ (computeAlpha_mem _ _ _).1 (computeAlpha_mem _ _ _).2
  · intro p src i hi hi2
    rw [basic_mapData_get p src i hi hi2]
    exact toFixed3_alpha_mem _ (computeAlpha_mem _ _ _).1 (computeAlpha_mem _ _ _).2

/-- C1 witness: the alpha bound instantiated at a singleton input. -/
theorem claim_C1_witness :
    (0.5 : ℝ) ≤ ((Standalone.mapData [⟨"A", 200⟩]).get
      ⟨0, by simp [Standalone.mapData_eq]⟩).color.a ∧
    ((Standalone.mapData [⟨"A", 200⟩]).get
      ⟨0, by simp [Standalone.mapData_eq]⟩).color.a ≤ 0.9 :=
  claim_C1.2.1 [⟨"A", 200⟩] 0 (by simp) (by simp [Standalone.mapData_eq])

/-- C2 as frozen is false: with a reversed range (`min = 1`, `max = 0`)
the smaller scale `0 < 1` receives the larger alpha (`0.9 > 0.5`), so
`computeAlpha` is not monotone in `scale` for arbitrary `min`, `max`. -/
theorem claim_C2_counterexample :
    (0 : ℝ) < 1 ∧
    ¬ Standalone.computeAlpha 0 1 0 ≤ Standalone.computeAlpha 1 1 0 := by
  constructor
  · norm_num
  · rw [alpha_rev_at_0, alpha_rev_at_1]
    norm_num

/-- C2 (amended): whenever `min ≤ max` — as always holds for the
min/max extracted inside one `mapData` call — `computeAlpha` is monotone
non-decreasing in `scale`; consequently within one standalone `mapData`
call, records with smaller scale receive no larger emitted alpha. -/
theorem claim_C2_amended :
    (∀ mn mx s1 s2 : ℝ, mn ≤ mx → s1 < s2 →
      Standalone.computeAlpha s1 mn mx ≤ Standalone.computeAlpha s2 mn mx) ∧
    (∀ (src : List Standalone.RawRecord) (i j : ℕ)
      (hi : i < src.length) (hj : j < src.length)
      (hi2 : i < (Standalone.mapData src).length)
      (hj2 : j < (Standalone.mapData src).length),
      (src.get ⟨i, hi⟩).scale < (src.get ⟨j, hj⟩).scale →
      ((Standalone.mapData src).get ⟨i, hi2⟩).color.a ≤
        ((Standalone.mapData src).get ⟨j, hj2⟩).color.a) := by
  constructor
  · intro mn mx s1 s2 hm h
    exact computeAlpha_mono mn mx s1 s2 hm h.le
  · intro src i j hi hj hi2 hj2 hs
    cases src with
    | nil => exact absurd hi (by simp)
    | cons x xs =>
      have hmm : jsMin ((x :: xs).map fun d => d.scale) ≤
          jsMax ((x :: xs).map fun d => d.scale) :=
        jsMin_le_jsMax _ (by simp)
      rw [standalone_mapData_get (x :: xs) i hi hi2,
        standalone_mapData_get (x :: xs) j hj hj2]
      exact toFixed3_mono (computeAlpha_mono _ _ _ _ hmm hs.le)

/-- C2 witness: the amended monotonicity instantiated on concrete data. -/
theorem claim_C2_witness :
    Standalone.computeAlpha 0 0 1 ≤ Standalone.computeAlpha 1 0 1 ∧
    ((Standalone.mapData [⟨"b", 2⟩, ⟨"a", 1⟩]).get
      ⟨1, by simp [Standalone.mapData_eq]⟩).color.a ≤
    ((Standalone.mapData [⟨"b", 2⟩, ⟨"a", 1⟩]).get
      ⟨0, by simp [Standalone.mapData_eq]⟩).color.a :=
  ⟨claim_C2_amended.1 0 1 0 1 (by norm_num) (by norm_num),
   claim_C2_amended.2 [⟨"b", 2⟩, ⟨"a", 1⟩] 1 0 (by simp) (by simp)
     (by simp [Standalone.mapData_eq]) (by simp [Standalone.mapData_eq])
     (show (1 : ℝ) < 2 by norm_num)⟩

/-- C3: on any non-empty input whose scales are all equal (so that the
extracted max equals the extracted min), every output record's emitted
alpha is `MAX_ALPHA = 0.9`; `computeAlpha` takes the degenerate branch
and the division is never evaluated. -/
theorem claim_C3 :
    (∀ (c : ℝ) (src : List Standalone.RawRecord), (∀ d ∈ src, d.scale = c) →
      ∀ (i : ℕ) (hi : i < src.length) (hi2 : i < (Standalone.mapData src).length),
        ((Standalone.mapData src).get ⟨i, hi2⟩).color.a = 0.9) ∧
    (∀ s : ℝ, Standalone.computeAlpha s s s = 0.9) := by
  constructor
  · intro c src hall i hi hi2
    cases src with
    | nil => exact absurd hi (by simp)
    | cons x xs =>
      have hscales : ∀ y ∈ (x :: xs).map fun d => d.scale, y = c := by
        intro y hy
        rcases List.mem_map.mp hy with ⟨d, hd, rfl⟩
        exact hall d hd
      have hmin : jsMin ((x :: xs).map fun d => d.scale) = c :=
        jsMin_const c _ (by simp) hscales
      have hmax : jsMax ((x :: xs).map fun d => d.scale) = c :=
        jsMax_const c _ (by simp) hscales
      rw [standalone_mapData_get (x :: xs) i hi hi2, hmin, hmax]
      show toFixed3 (Standalone.computeAlpha ((x :: xs).get ⟨i, hi⟩).scale c c) = 0.9
      rw [Standalone.computeAlpha_of_eq _ c c rfl]
      exact toFixed3_max_alpha
  · intro s
    exact Standalone.computeAlpha_of_eq s s s rfl

/-- C3 witness: two records of equal scale both get alpha `0.9`. -/
theorem claim_C3_witness :
    ((Standalone.mapData [⟨"X", 10⟩, ⟨"Y", 10⟩]).get
      ⟨0, by simp [Standalone.mapData_eq]⟩).color.a = 0.9 :=
  claim_C3.1 10 [⟨"X", 10⟩, ⟨"Y", 10⟩]
    (by
      rintro d hd
      fin_cases hd <;> rfl)
    0 (by simp) (by simp [Standalone.mapData_eq])

/-- C4 as frozen is false for the standalone variant it cites: on the
concrete input `[{fundname:'Z'}]` — the scale field missing, hence read
as `undefined` — the standalone `mapData` coerces nothing: the output
`value` and `scale` fields keep the raw `undefined` instead of becoming
`0`, and the emitted alpha is `NaN` (the `rgba` string reads
`rgba(87, 129, 253, NaN)`). -/
theorem claim_C4_counterexample :
    ((DynStandalone.mapData [⟨"Z", JSValue.undefined⟩]).get
      ⟨0, by simp [dyn_mapData_eq]⟩).value ≠ JSValue.num 0 ∧
    ((DynStandalone.mapData [⟨"Z", JSValue.undefined⟩]).get
      ⟨0, by simp [dyn_mapData_eq]⟩).scale ≠ JSValue.num 0 ∧
    ((DynStandalone.mapData [⟨"Z", JSValue.undefined⟩]).get
      ⟨0, by simp [dyn_mapData_eq]⟩).color.a = none := by
  refine ⟨?_, ?_, rfl⟩
  all_goals exact fun h => JSValue.noConfusion h

/-- C4 (amended): `mapData` is total (by construction in this model, as
in the source, which never throws) and omits no record in either
variant.  In the Vue variants — which coerce with `Number(..) || 0` — a
record whose scale field is missing (read as `undefined`), `null`,
`undefined`, or a non-numeric string is kept with its output `value`
and `scale` fields coerced to `0`.  The standalone variant instead
passes the raw scale field through to `value` and `scale`, uncoerced. -/
theorem claim_C4 :
    (∀ (p : TreeMapBasic.Props) (src : List VueRecord) (i : ℕ)
      (hi : i < src.length) (hi2 : i < (TreeMapBasic.mapData p src).length),
      Malformed (getField (src.get ⟨i, hi⟩) (keyOrDefault p.scaleKey "scale")) →
      (TreeMapBasic.mapData p src).length = src.length ∧
      ((TreeMapBasic.mapData p src).get ⟨i, hi2⟩).value = 0 ∧
      ((TreeMapBasic.mapData p src).get ⟨i, hi2⟩).scale = 0) ∧
    (∀ src : List DynStandalone.DynRawRecord,
      (DynStandalone.mapData src).length = src.length ∧
      ∀ (i : ℕ) (hi : i < src.length) (hi2 : i < (DynStandalone.mapData src).length),
        ((DynStandalone.mapData src).get ⟨i, hi2⟩).value = (src.get ⟨i, hi⟩).scale ∧
        ((DynStandalone.mapData src).get ⟨i, hi2⟩).scale = (src.get ⟨i, hi⟩).scale) := by
  constructor
  · intro p src i hi hi2 hm
    have hlen : (TreeMapBasic.mapData p src).length = src.length := by
      cases src with
      | nil => rfl
      | cons x xs => simp [basic_mapData_cons]
    refine ⟨hlen, ?_, ?_⟩
    · rw [basic_mapData_get p src i hi hi2]
      show numberOrZero (getField (src.get ⟨i, hi⟩)
        (keyOrDefault p.scaleKey "scale")) = 0
      exact numberOrZero_of_malformed _ hm
    · rw [basic_mapData_get p src i hi hi2]
      show numberOrZero (getField (src.get ⟨i, hi⟩)
        (keyOrDefault p.scaleKey "scale")) = 0
      exact numberOrZero_of_malformed _ hm
  · intro src
    refine ⟨by simp [dyn_mapData_eq], ?_⟩
    intro i hi hi2
    rw [dyn_mapData_get src i hi hi2]
    exact ⟨rfl, rfl⟩

/-- C4 witness: in the basic Vue variant, a record with no scale field
at all is kept, with value and scale `0`. -/
theorem claim_C4_witness :
    (TreeMapBasic.mapData ⟨12, "", ""⟩ [⟨[]⟩]).length = 1 ∧
    ((TreeMapBasic.mapData ⟨12, "", ""⟩ [⟨[]⟩]).get
      ⟨0, by simp [basic_mapData_cons]⟩).value = 0 ∧
    ((TreeMapBasic.mapData ⟨12, "", ""⟩ [⟨[]⟩]).get
      ⟨0, by simp [basic_mapData_cons]⟩).scale = 0 :=
  claim_C4.1 ⟨12, "", ""⟩ [⟨[]⟩] 0 (by simp)
    (by simp [basic_mapData_cons]) (Or.inl rfl)

/-- C5: `mapData` preserves length and order — the output has exactly
the input's length, and the `i`-th output record is the per-record
transform of the `i`-th input record (standalone and basic Vue variant). -/
theorem claim_C5 :
    (∀ src : List Standalone.RawRecord,
      (Standalone.mapData src).length = src.length ∧
      ∀ (i : ℕ) (hi : i < src.length) (hi2 : i < (Standalone.mapData src).length),
        (Standalone.mapData src).get ⟨i, hi2⟩ =
          Standalone.mapRecord (jsMin (src.map fun d => d.scale))
            (jsMax (src.map fun d => d.scale)) (src.get ⟨i, hi⟩)) ∧
    (∀ (p : TreeMapBasic.Props) (src : List VueRecord),
      (TreeMapBasic.mapData p src).length = src.length ∧
      ∀ (i : ℕ) (hi : i < src.length) (hi2 : i < (TreeMapBasic.mapData p src).length),
        (TreeMapBasic.mapData p src).get ⟨i, hi2⟩ =
          TreeMapBasic.mapRecord p.fontSize
            (keyOrDefault p.fundNameKey "fund_name")
            (keyOrDefault p.scaleKey "scale")
            (jsMin (src.map fun d =>
              numberOrZero (getField d (keyOrDefault p.scaleKey "scale"))))
            (jsMax (src.map fun d =>
              numberOrZero (getField d (keyOrDefault p.scaleKey "scale"))))
            (src.get ⟨i, hi⟩)) := by
  constructor
  · intro src
    refine ⟨by simp [Standalone.mapData_eq], ?_⟩
    intro i hi hi2
    exact standalone_mapData_get src i hi hi2
  · intro p src
    refine ⟨?_, ?_⟩
    · cases src with
      | nil => rfl
      | cons x xs => simp [basic_mapData_cons]
    · intro i hi hi2
      exact basic_mapData_get p src i hi hi2

/-- C5 witness: length and index preservation on a two-record input. -/
theorem claim_C5_witness :
    (Standalone.mapData [⟨"A", 200⟩, ⟨"B", 150⟩]).length = 2 ∧
    (Standalone.mapData [⟨"A", 200⟩, ⟨"B", 150⟩]).get
        ⟨1, by simp [Standalone.mapData_eq]⟩ =
      Standalone.mapRecord
        (jsMin (([⟨"A", 200⟩, ⟨"B", 150⟩] : List Standalone.RawRecord).map
          fun d => d.scale))
        (jsMax (([⟨"A", 200⟩, ⟨"B", 150⟩] : List Standalone.RawRecord).map
          fun d => d.scale))
        (([⟨"A", 200⟩, ⟨"B", 150⟩] : List Standalone.RawRecord).get ⟨1, by simp⟩) :=
  ⟨(claim_C5.1 [⟨"A", 200⟩, ⟨"B", 150⟩]).1,
   (claim_C5.1 [⟨"A", 200⟩, ⟨"B", 150⟩]).2 1 (by simp)
     (by simp [Standalone.mapData_eq])⟩

/-- C6: empty input gives empty output in all three variants, with no
error: the per-record branch (and hence the division in `computeAlpha`)
is never reached, and in the standalone variant the junk spread min/max
over the empty array is never consumed. -/
theorem claim_C6 :
    Standalone.mapData [] = [] ∧
    (∀ p : TreeMapBasic.Props, TreeMapBasic.mapData p [] = []) ∧
    (∀ p : TreeMapRich.Props, TreeMapRich.mapData p [] = []) :=
  ⟨rfl, fun _ => rfl, fun _ => rfl⟩

/-- C7: on the scenario input `A:200, B:150, C:100, D:50` the emitted
alphas are exactly `0.9, 0.8, 0.6, 0.5` — strictly increasing with scale
(`alpha(D) < alpha(C) < alpha(B) < alpha(A)`), the minimum-scale record
at exactly `0.5` and the maximum-scale record at exactly `0.9`. -/
theorem claim_C7 :
    (Standalone.mapData scenarioData).map (fun r => r.color.a) =
      [0.9, 0.8, 0.6, 0.5] ∧
    List.Chain' (fun x y : ℝ => y < x)
      ((Standalone.mapData scenarioData).map fun r => r.color.a) := by
  have hmin : jsMin (scenarioData.map fun d => d.scale) = 50 := by
    norm_num [scenarioData, jsMin, List.foldl, min_def]
  have hmax : jsMax (scenarioData.map fun d => d.scale) = 200 := by
    norm_num [scenarioData, jsMax, List.foldl, max_def]
  have hlist : (Standalone.mapData scenarioData).map (fun r => r.color.a) =
      [0.9, 0.8, 0.6, 0.5] := by
    rw [Standalone.mapData_eq, hmin, hmax]
    show [toFixed3 (Standalone.computeAlpha 200 50 200),
      toFixed3 (Standalone.computeAlpha 150 50 200),
      toFixed3 (Standalone.computeAlpha 100 50 200),
      toFixed3 (Standalone.computeAlpha 50 50 200)] = [0.9, 0.8, 0.6, 0.5]
    rw [alpha_at_200, alpha_at_150, alpha_at_100, alpha_at_50,
      toFixed3_max_alpha, toFixed3_eight_tenths, toFixed3_six_tenths,
      toFixed3_min_alpha]
  refine ⟨hlist, ?_⟩
  rw [hlist]
  norm_num [List.chain'_cons, List.chain'_singleton]

/-- C8: changing only the `format` prop (plain, large, percent or
currency) leaves the rich Vue `mapData` output — values, scales and
colour strings — completely unchanged; `format` is consumed only by the
display-time formatters. -/
theorem claim_C8 :
    ∀ (p : TreeMapRich.Props) (f1 f2 : TreeMapRich.FormatMode)
      (src : List VueRecord),
      TreeMapRich.mapData { p with format := f1 } src =
        TreeMapRich.mapData { p with format := f2 } src :=
  fun _ _ _ _ => rfl

/-- C9: the three `computeAlpha` implementations — standalone script,
basic Vue component and rich Vue component — agree on every input. -/
theorem claim_C9 :
    ∀ s mn mx : ℝ,
      Standalone.computeAlpha s mn mx = TreeMapBasic.computeAlpha s mn mx ∧
      Standalone.computeAlpha s mn mx = TreeMapRich.computeAlpha s mn mx :=
  fun _ _ _ => ⟨rfl, rfl⟩

/-- C10: in the Vue `mapData` a scale field holding a numeric string
with non-zero parse is used as that number for the output `value` and
`scale` fields and for the alpha computation; exactly the values whose
`Number` conversion is `NaN` or zero become `0`; and the rich variant's
`mapData` computes the same records as the basic one. -/
theorem claim_C10 :
    (∀ (p : TreeMapBasic.Props) (src : List VueRecord) (i : ℕ)
      (hi : i < src.length) (hi2 : i < (TreeMapBasic.mapData p src).length)
      (s : String) (x : ℝ),
      getField (src.get ⟨i, hi⟩) (keyOrDefault p.scaleKey "scale") =
        JSValue.str s (some x) →
      x ≠ 0 →
      ((TreeMapBasic.mapData p src).get ⟨i, hi2⟩).value = x ∧
      ((TreeMapBasic.mapData p src).get ⟨i, hi2⟩).scale = x ∧
      ((TreeMapBasic.mapData p src).get ⟨i, hi2⟩).color.a =
        toFixed3 (TreeMapBasic.computeAlpha x
          (jsMin (src.map fun d =>
            numberOrZero (getField d (keyOrDefault p.scaleKey "scale"))))
          (jsMax (src.map fun d =>
            numberOrZero (getField d (keyOrDefault p.scaleKey "scale")))))) ∧
    (∀ v : JSValue, numberOrZero v = 0 ↔
      (jsToNumber v = none ∨ jsToNumber v = some 0)) ∧
    (∀ (p : TreeMapRich.Props) (src : List VueRecord),
      TreeMapRich.mapData p src =
        TreeMapBasic.mapData ⟨p.fontSize, p.fundNameKey, p.scaleKey⟩ src) := by
  refine ⟨?_, ?_, fun p src => rfl⟩
  · intro p src i hi hi2 s x hf hx
    have hcoerce : numberOrZero (getField (src.get ⟨i, hi⟩)
        (keyOrDefault p.scaleKey "scale")) = x := by
      rw [hf]
      exact numberOrZero_str s x hx
    rw [basic_mapData_get p src i hi hi2]
    refine ⟨?_, ?_, ?_⟩
    · show numberOrZero (getField (src.get ⟨i, hi⟩)
        (keyOrDefault p.scaleKey "scale")) = x
      exact hcoerce
    · show numberOrZero (getField (src.get ⟨i, hi⟩)
        (keyOrDefault p.scaleKey "scale")) = x
      exact hcoerce
    · show toFixed3 (TreeMapBasic.computeAlpha
          (numberOrZero (getField (src.get ⟨i, hi⟩)
            (keyOrDefault p.scaleKey "scale")))
          (jsMin (src.map fun d =>
            numberOrZero (getField d (keyOrDefault p.scaleKey "scale"))))
          (jsMax (src.map fun d =>
            numberOrZero (getField d (keyOrDefault p.scaleKey "scale"))))) =
        toFixed3 (TreeMapBasic.computeAlpha x
          (jsMin (src.map fun d =>
            numberOrZero (getField d (keyOrDefault p.scaleKey "scale"))))
          (jsMax (src.map fun d =>
            numberOrZero (getField d (keyOrDefault p.scaleKey "scale")))))
      rw [hcoerce]
  · intro v
    cases v with
    | undefined => simp [numberOrZero, jsToNumber]
    | null => simp [numberOrZero, jsToNumber]
    | num x => by_cases hx : x = 0 <;> simp [numberOrZero, jsToNumber, hx]
    | str s p =>
      cases p with
      | none => simp [numberOrZero, jsToNumber]
      | some x => by_cases hx : x = 0 <;> simp [numberOrZero, jsToNumber, hx]

/-- C10 witness: a record whose scale field is the string `"50"` gets
value and scale `50`. -/
theorem claim_C10_witness :
    ((TreeMapBasic.mapData ⟨12, "", ""⟩
      [⟨[("scale", JSValue.str "50" (some 50))]⟩]).get
      ⟨0, by simp [basic_mapData_cons]⟩).value = 50 ∧
    ((TreeMapBasic.mapData ⟨12, "", ""⟩
      [⟨[("scale", JSValue.str "50" (some 50))]⟩]).get
      ⟨0, by simp [basic_mapData_cons]⟩).scale = 50 :=
  ⟨(claim_C10.1 ⟨12, "", ""⟩ [⟨[("scale", JSValue.str "50" (some 50))]⟩] 0
      (by simp) (by simp [basic_mapData_cons]) "50" 50 rfl
      (by norm_num)).1,
   (claim_C10.1 ⟨12, "", ""⟩ [⟨[("scale", JSValue.str "50" (some 50))]⟩] 0
      (by simp) (by simp [basic_mapData_cons]) "50" 50 rfl
      (by norm_num)).2.1⟩
